import Mathlib

/-!
Verification of the task-processing service against its design document.

The definitions below are a shallow embedding of the TypeScript sources:

* CacheService        — src/common/services/cache.service.ts
* RateLimitGuard      — the rate-limit guard (canActivate / getClientIdentifier /
                        handleRateLimit)
* TasksService        — src/modules/tasks/tasks.service.ts
* TaskProcessorService— the BullMQ worker (process / shouldRetry / handlers)
* OverdueTasksService — src/queues/scheduled-tasks/overdue-tasks.service.ts

Conventions of the embedding:

* Asynchronous methods become pure state-passing functions; the Redis store,
  the relational store and the queue are explicit values threaded through.
* JavaScript truthiness on optional strings is modelled by jsTruthy
  (undefined and the empty string are falsy).
* Fallible store and queue interactions are modelled by explicit outcome
  parameters (for example QueueAddResult), since the stores are external
  processes whose failures the code catches.
* Time does not advance during a single window of interest, so a stored
  Redis expiry is returned as the remaining ttl.
-/

namespace ScriptAssist

/-- Truthiness of an optional JavaScript string: undefined and the empty
string are falsy, every other string is truthy. -/
def jsTruthy : Option String → Bool
  | none => false
  | some s => s ≠ ""

/-- Modelled from the spec: src/modules/tasks/enums/task-status.enum.ts is not
in the source tree; the spec fixes status as one of PENDING, IN_PROGRESS,
COMPLETED, and the SQL in TasksService.getStats interpolates exactly these
string values. -/
inductive TaskStatus
  | PENDING
  | IN_PROGRESS
  | COMPLETED
deriving DecidableEq, Repr

/-- String value of a TaskStatus enum member, as interpolated by the code. -/
def TaskStatus.value : TaskStatus → String
  | .PENDING => "PENDING"
  | .IN_PROGRESS => "IN_PROGRESS"
  | .COMPLETED => "COMPLETED"

/-- Object.values(TaskStatus) — the list of valid status strings. -/
def taskStatusValues : List String := ["PENDING", "IN_PROGRESS", "COMPLETED"]

/-- Parse a raw status string back into the enum. -/
def TaskStatus.ofString? : String → Option TaskStatus
  | "PENDING" => some .PENDING
  | "IN_PROGRESS" => some .IN_PROGRESS
  | "COMPLETED" => some .COMPLETED
  | _ => none

/-- Modelled from the spec: the Task entity file is not in the source tree;
the spec gives identity, title, description, status, priority, optional due
timestamp.  The due timestamp is epoch milliseconds. -/
structure Task where
  id : String
  title : String := ""
  description : String := ""
  status : TaskStatus
  priority : String := "MEDIUM"
  dueDate : Option Int := none
deriving DecidableEq, Repr

/-- Payload of a job placed on the task-processing queue by the producers. -/
inductive JobPayload
  | statusUpdate (taskId : String) (status : TaskStatus)
  | overdue (taskIds : List String) (batchSize : Nat) (checkedAt : Int)
deriving DecidableEq, Repr

/-- A job enqueued on the task-processing queue. -/
structure QueueJob where
  name : String
  payload : JobPayload
deriving DecidableEq, Repr

/-- Outcome of a single taskQueue.add or taskQueue.addBulk call: the queue
transport is an external process, so whether the call throws is an input of
the model. -/
inductive QueueAddResult
  | ok
  | fail
deriving DecidableEq, Repr

namespace CacheService

/-- State of the Redis client as seen through the facade.  connected mirrors
client.status being ready; incrFails and ttlFails inject store errors thrown
by client.incr and client.ttl (caught inside the facade); counts holds the
integer value of each key; expiries holds the expiry seconds recorded for
keys given an expiry. -/
structure RedisState where
  connected : Bool
  incrFails : Bool := false
  ttlFails : Bool := false
  counts : List (String × Nat) := []
  expiries : List (String × Nat) := []
deriving DecidableEq, Repr

/-- Association-list lookup for the modelled Redis keyspace. -/
def lookupNat (m : List (String × Nat)) (k : String) : Option Nat :=
  (m.find? (fun p => p.1 == k)).map (fun p => p.2)

/-- Association-list update for the modelled Redis keyspace. -/
def setEntry (m : List (String × Nat)) (k : String) (v : Nat) : List (String × Nat) :=
  (k, v) :: m.filter (fun p => p.1 != k)

/-- buildKey from cache.service.ts: namespace and key joined by a colon. -/
def buildKey (ns key : String) : String := ns ++ ":" ++ key

/-- Truthiness of the optional ttlSeconds argument: undefined and 0 are
falsy, matching the guard newValue === 1 AND ttlSeconds in the source. -/
def ttlTruthy : Option Nat → Bool
  | none => false
  | some t => t ≠ 0

/-- CacheService.increment: returns 0 when the client is not connected or the
INCR call throws (the error is caught and logged); otherwise atomically
increments the namespaced key, and sets the expiry exactly when the new value
is 1 and a truthy ttl was supplied. -/
def increment (st : RedisState) (key ns : String) (ttlSeconds : Option Nat) :
    Nat × RedisState :=
  if !st.connected then (0, st)
  else if st.incrFails then (0, st)
  else
    let cacheKey := buildKey ns key
    let newValue := (lookupNat st.counts cacheKey).getD 0 + 1
    let st1 : RedisState := { st with counts := setEntry st.counts cacheKey newValue }
    if newValue = 1 && ttlTruthy ttlSeconds then
      (newValue,
       { st1 with expiries := setEntry st1.expiries cacheKey (ttlSeconds.getD 0) })
    else
      (newValue, st1)

/-- CacheService.getTTL: -2 when not connected or the TTL call throws;
otherwise the Redis TTL of the key: remaining seconds, -1 for a key with no
expiry, -2 for an absent key. -/
def getTTL (st : RedisState) (key ns : String) : Int :=
  if !st.connected then -2
  else if st.ttlFails then -2
  else
    let cacheKey := buildKey ns key
    match lookupNat st.expiries cacheKey with
    | some t => (t : Int)
    | none => if (lookupNat st.counts cacheKey).isSome then -1 else -2

/-- Repeated calls of increment with the same key, namespace and ttl
argument.  iterateIncrement st key ns t n performs n calls and returns the
value returned by the last call (0 for n = 0) together with the final store
state. -/
def iterateIncrement (st : RedisState) (key ns : String) (ttlSeconds : Option Nat) :
    Nat → Nat × RedisState
  | 0 => (0, st)
  | n + 1 =>
    let r := iterateIncrement st key ns ttlSeconds n
    increment r.2 key ns ttlSeconds

end CacheService

namespace RateLimitGuard

/-- The parts of the inbound request object that getClientIdentifier reads:
request.ip, request.connection.remoteAddress, and the x-forwarded-for and
x-real-ip headers.  A missing field or header is none. -/
structure Request where
  ip : Option String := none
  connectionRemoteAddress : Option String := none
  xForwardedFor : Option String := none
  xRealIp : Option String := none
deriving DecidableEq, Repr

/-- Whitespace trim at both ends, the semantics of the JavaScript trim()
call, written on the character list so that it evaluates inside the
kernel. -/
def trimString (s : String) : String :=
  String.mk (((s.toList.dropWhile Char.isWhitespace).reverse.dropWhile
    Char.isWhitespace).reverse)

/-- First hop of an x-forwarded-for header value — headers xff
.split(\x27,\x27)[0].trim() in the source.  Element 0 of the split is
exactly the longest prefix of the string containing no comma, written here
on the character list so that it evaluates inside the kernel. -/
def xffFirstHop (s : String) : String :=
  trimString (String.mk (s.toList.takeWhile (fun c => c ≠ ',')))

/-- The raw address selected by getClientIdentifier before hashing, with the
exact JavaScript or-chain of the source: request.ip, else
request.connection.remoteAddress, else the trimmed first hop of
x-forwarded-for, else x-real-ip, else the sentinel.  Each alternative is
skipped when falsy (absent or the empty string). -/
def selectedIp (r : Request) : String :=
  if jsTruthy r.ip then r.ip.getD ""
  else if jsTruthy r.connectionRemoteAddress then r.connectionRemoteAddress.getD ""
  else
    let xffCandidate := r.xForwardedFor.map xffFirstHop
    if jsTruthy xffCandidate then xffCandidate.getD ""
    else if jsTruthy r.xRealIp then r.xRealIp.getD ""
    else "unknown"

/-- RateLimitGuard.getClientIdentifier: the selected raw address is passed
through the one-way hash (createHash sha256 ... digest hex, an external
library call modelled as an abstract function) and the digest is truncated to
its first 16 characters. -/
def getClientIdentifier (hash : String → String) (r : Request) : String :=
  ((hash (selectedIp r)).take 16)

/-- Selection order as the specification states it: the first hop of the
forwarded-for list if the header is present, else the real-ip header, else
the raw connection address, else the sentinel.  This definition follows the
words of the spec, to be compared with selectedIp, which follows the code. -/
def specSelectedIp (r : Request) : String :=
  match r.xForwardedFor with
  | some s => xffFirstHop s
  | none =>
    match r.xRealIp with
    | some s => s
    | none =>
      match r.ip with
      | some s => s
      | none =>
        match r.connectionRemoteAddress with
        | some s => s
        | none => "unknown"

/-- The structured rejection thrown by handleRateLimit when the window count
exceeds the limit.  resetAt is epoch milliseconds. -/
structure RejectionPayload where
  limit : Nat
  remaining : Nat
  resetAt : Int
deriving DecidableEq, Repr

/-- RateLimitGuard.handleRateLimit: convert windowMs to whole seconds
(Math.ceil), increment the namespaced counter, and reject with a payload when
the new count exceeds the limit, computing the reset time from the remaining
ttl when it is positive and from now + windowMs otherwise.  The facade
absorbs its own store errors (returning 0 and -2), so the only exception
crossing this function is the capacity rejection itself; any other thrown
error would be caught and turned into an admission. -/
def handleRateLimit (st : CacheService.RedisState) (identifier : String)
    (limit windowMs : Nat) (now : Int) :
    Except RejectionPayload Bool × CacheService.RedisState :=
  let ttlSeconds := (windowMs + 999) / 1000
  let rateLimitNamespace := "rate_limit"
  let r := CacheService.increment st identifier rateLimitNamespace (some ttlSeconds)
  let current := r.1
  if current > limit then
    let ttl := CacheService.getTTL r.2 identifier rateLimitNamespace
    let resetTime : Int := if ttl > 0 then now + ttl * 1000 else now + (windowMs : Int)
    (.error { limit := limit, remaining := 0, resetAt := resetTime }, r.2)
  else
    (.ok true, r.2)

/-- Sequence of n admission checks for one identifier within one window (time
does not advance).  Returns the list of per-check outcomes and the final
store state. -/
def admissionTrace (st : CacheService.RedisState) (identifier : String)
    (limit windowMs : Nat) (now : Int) :
    Nat → List (Except RejectionPayload Bool) × CacheService.RedisState
  | 0 => ([], st)
  | n + 1 =>
    let prev := admissionTrace st identifier limit windowMs now n
    let r := handleRateLimit prev.2 identifier limit windowMs now
    (prev.1 ++ [r.1], r.2)

end RateLimitGuard

/-- Modelled from the spec: the UpdateTaskDto file is not in the source tree;
per the data model a task update may carry any subset of title, description,
status, priority and due date.  An absent field leaves the entity field
unchanged under queryRunner.manager.merge. -/
structure UpdateTaskDto where
  title : Option String := none
  description : Option String := none
  status : Option TaskStatus := none
  priority : Option String := none
  dueDate : Option Int := none
deriving DecidableEq, Repr

namespace TasksService

/-- Field-wise merge of an update dto into an existing entity, as
queryRunner.manager.merge applies the defined dto fields over the loaded
task. -/
def mergeTask (t : Task) (dto : UpdateTaskDto) : Task :=
  { t with
    title := dto.title.getD t.title
    description := dto.description.getD t.description
    status := dto.status.getD t.status
    priority := dto.priority.getD t.priority
    dueDate := match dto.dueDate with
      | some d => some d
      | none => t.dueDate }

/-- Repository lookup by id. -/
def findTask (db : List Task) (id : String) : Option Task :=
  db.find? (fun t => t.id == id)

/-- TasksService.create: the save and commit happen inside the transaction;
when they fail the transaction is rolled back and the error propagates with
the database unchanged.  After a successful commit the enqueue of the
task-status-update job is attempted in its own try block: a queue error is
logged and swallowed, and the saved task is returned either way.  savedTask
stands for the entity built from the dto with its generated id; commitOk
and enq inject the outcomes of the two external calls. -/
def create (db : List Task) (queue : List QueueJob) (savedTask : Task)
    (commitOk : Bool) (enq : QueueAddResult) :
    Except String Task × List Task × List QueueJob :=
  if !commitOk then
    (.error "create failed", db, queue)
  else
    let db1 := db ++ [savedTask]
    match enq with
    | .ok =>
      (.ok savedTask, db1,
       queue ++ [⟨"task-status-update", .statusUpdate savedTask.id savedTask.status⟩])
    | .fail => (.ok savedTask, db1, queue)

/-- TasksService.update: load the task (NotFound rolls back and propagates),
merge the dto, save, commit; when the pre-update status differs from the
post-update status attempt exactly one task-status-update enqueue carrying
the task id and the new status, swallowing a queue error; finally reload the
record by id from the saved state. -/
def update (db : List Task) (queue : List QueueJob) (id : String)
    (dto : UpdateTaskDto) (enq : QueueAddResult) :
    Except String Task × List Task × List QueueJob :=
  match findTask db id with
  | none => (.error ("Task with ID " ++ id ++ " not found"), db, queue)
  | some task =>
    let originalStatus := task.status
    let updatedTask := mergeTask task dto
    let db1 := db.map (fun t => if t.id == id then updatedTask else t)
    let queue1 :=
      if originalStatus ≠ updatedTask.status then
        match enq with
        | .ok =>
          queue ++ [⟨"task-status-update", .statusUpdate updatedTask.id updatedTask.status⟩]
        | .fail => queue
      else queue
    match findTask db1 id with
    | some reloaded => (.ok reloaded, db1, queue1)
    | none => (.error ("Task with ID " ++ id ++ " not found"), db1, queue1)

/-- TasksService.batchComplete: one bulk UPDATE sets every row whose id is in
the input list to COMPLETED; affected is the number of matched rows.  After
commit, when the input list is nonempty, one task-status-update job per input
id (not per affected row) is submitted through a single addBulk call whose
failure is logged and swallowed.  The report is success = affected, failed =
input length minus affected. -/
def batchComplete (db : List Task) (queue : List QueueJob) (taskIds : List String)
    (commitOk : Bool) (enq : QueueAddResult) :
    Except String (Nat × Nat) × List Task × List QueueJob :=
  if !commitOk then
    (.error "batchComplete failed", db, queue)
  else
    let affected := (db.filter (fun t => taskIds.contains t.id)).length
    let db1 := db.map (fun t =>
      if taskIds.contains t.id then { t with status := .COMPLETED } else t)
    let queue1 :=
      if taskIds.length > 0 then
        match enq with
        | .ok =>
          queue ++ taskIds.map (fun tid =>
            (⟨"task-status-update", .statusUpdate tid .COMPLETED⟩ : QueueJob))
        | .fail => queue
      else queue
    (.ok (affected, taskIds.length - affected), db1, queue1)

end TasksService

/-- Failure taxonomy of the worker, mirroring the exception classes the
processor inspects: BadRequestException, NotFoundException, and every other
error (network, database connection, and the like). -/
inductive AppError
  | badRequest (msg : String)
  | notFound (msg : String)
  | transient (msg : String)
deriving DecidableEq, Repr

/-- QUEUE_CONSTANTS.MAX_RETRIES from queue.constants.ts. -/
def MAX_RETRIES : Nat := 3

/-- QUEUE_JOB_OPTIONS.attempts from queue.constants.ts: the per-job attempt
count the Overdue Scanner puts on every job it enqueues. -/
def QUEUE_JOB_OPTIONS_attempts : Nat := 3

/-- OVERDUE_TASKS_CONSTANTS.BATCH_SIZE from queue.constants.ts. -/
def BATCH_SIZE : Nat := 100

/-- OVERDUE_TASKS_CONSTANTS.MAX_TASKS_PER_RUN from queue.constants.ts. -/
def MAX_TASKS_PER_RUN : Nat := 1000

namespace TaskProcessorService

/-- A delivered BullMQ job as the processor reads it: the type tag, the
number of attempts already made, and the raw (unvalidated) data fields of
the two payload shapes. -/
structure RawJob where
  name : String
  attemptsMade : Nat := 0
  taskId : Option String := none
  status : Option String := none
  taskIds : Option (List String) := none
  batchSize : Option Nat := none
deriving DecidableEq, Repr

/-- Environment of the worker: the relational store and a flag injecting a
store outage, under which every tasksService call throws a non-NotFound
error. -/
structure Env where
  db : List Task
  dbDown : Bool := false
deriving DecidableEq, Repr

/-- Result value returned by a successful job execution. -/
inductive ProcResult
  | statusUpdated (taskId : String) (newStatus : TaskStatus)
  | overdueBatch (success : Bool) (total processed failed : Nat)
      (errors : List (String × String))
  | overdueNoop
deriving DecidableEq, Repr

/-- TaskProcessorService.shouldRetry: false once attemptsMade has reached
MAX_RETRIES, false for validation and not-found failures, true for every
other failure. -/
def shouldRetry (error : AppError) (job : RawJob) : Bool :=
  if job.attemptsMade ≥ MAX_RETRIES then false
  else
    match error with
    | .badRequest _ => false
    | .notFound _ => false
    | .transient _ => true

/-- TasksService.updateStatus as the worker calls it: findOne throws
NotFound for an absent id, otherwise the status is saved; a store outage
surfaces as a non-NotFound error. -/
def updateStatus (env : Env) (id : String) (status : TaskStatus) :
    Except AppError (Task × Env) :=
  if env.dbDown then .error (.transient "database connection lost")
  else
    match TasksService.findTask env.db id with
    | none => .error (.notFound ("Task with ID " ++ id ++ " not found"))
    | some t =>
      let t1 := { t with status := status }
      .ok (t1, { env with db := env.db.map (fun u => if u.id == id then t1 else u) })

/-- TaskProcessorService.handleStatusUpdate: reject a falsy taskId, a falsy
status, and a status outside the enum values with BadRequestException; then
call updateStatus, rethrowing NotFound (terminal) and any other error
unchanged. -/
def handleStatusUpdate (env : Env) (job : RawJob) : Except AppError ProcResult :=
  if !jsTruthy job.taskId then .error (.badRequest "Missing required field: taskId")
  else if !jsTruthy job.status then .error (.badRequest "Missing required field: status")
  else
    match TaskStatus.ofString? (job.status.getD "") with
    | none => .error (.badRequest ("Invalid status value: " ++ job.status.getD ""))
    | some status =>
      match updateStatus env (job.taskId.getD "") status with
      | .error e => .error e
      | .ok r => .ok (.statusUpdated r.1.id r.1.status)

/-- Fuelled worker for chunkArray: the fuel only bounds the recursion depth
and is always supplied as the list length, which suffices for any positive
size. -/
def chunkAux {α : Type} (size : Nat) : List α → Nat → List (List α)
  | [], _ => []
  | _ :: _, 0 => []
  | arr, fuel + 1 => arr.take size :: chunkAux size (arr.drop size) fuel

/-- Chunk a list into consecutive slices of the given size, as the
processor's for-loop does with slice(i, i + batchSize).  A size of 0 makes
the JavaScript loop diverge; the model returns [] in that case and every
statement about batches assumes a positive size. -/
def chunkArray {α : Type} (arr : List α) (size : Nat) : List (List α) :=
  if size = 0 then [] else chunkAux size arr arr.length

/-- Per-batch accumulator of processOverdueTaskBatch: the mutable results
object plus the threaded store state. -/
structure BatchAcc where
  processed : Nat
  failed : Nat
  errors : List (String × String)
  env : Env
deriving DecidableEq, Repr

/-- Processing of one task id inside a batch: a successful updateStatus to
PENDING bumps processed, a thrown error bumps failed and appends
(taskId, message) to errors; the error never escapes. -/
def processOneId (acc : BatchAcc) (taskId : String) : BatchAcc :=
  match updateStatus acc.env taskId .PENDING with
  | .ok r => { acc with processed := acc.processed + 1, env := r.2 }
  | .error e =>
    let msg := match e with
      | .badRequest m => m
      | .notFound m => m
      | .transient m => m
    { acc with failed := acc.failed + 1, errors := acc.errors ++ [(taskId, msg)] }

/-- TaskProcessorService.processOverdueTaskBatch: total is the input length;
the ids are processed batch by batch, each id independently, and the
aggregate carries processed, failed, the per-id errors, and success iff
failed = 0. -/
def processOverdueTaskBatch (env : Env) (taskIds : List String) (batchSize : Nat) :
    ProcResult :=
  let init : BatchAcc := { processed := 0, failed := 0, errors := [], env := env }
  let finalAcc := (chunkArray taskIds batchSize).foldl
    (fun acc batch => batch.foldl processOneId acc) init
  .overdueBatch (finalAcc.failed == 0) taskIds.length finalAcc.processed
    finalAcc.failed finalAcc.errors

/-- TaskProcessorService.handleOverdueTasks: when the data carries a
nonempty id list, run the batch processing with the supplied batch size
(defaulting to 100 when the field is undefined); otherwise log and succeed
as a no-op. -/
def handleOverdueTasks (env : Env) (job : RawJob) : Except AppError ProcResult :=
  let batchSize := job.batchSize.getD 100
  match job.taskIds with
  | some ids => if ids.length > 0 then .ok (processOverdueTaskBatch env ids batchSize)
                else .ok .overdueNoop
  | none => .ok .overdueNoop

/-- TaskProcessorService.process: route by exact match on the type tag, an
unknown tag throwing BadRequestException.  The surrounding catch block
computes shouldRetry, but both of its branches rethrow the error, so the
observable outcome of process is the handler outcome itself regardless of
the classification. -/
def process (env : Env) (job : RawJob) : Except AppError ProcResult :=
  match job.name with
  | "task-status-update" => handleStatusUpdate env job
  | "overdue-tasks-notification" => handleOverdueTasks env job
  | other => .error (.badRequest ("Unknown job type: " ++ other))

/-- Modelled from the spec: the queue transport contract of section 6 —
per-job attempt count with retry triggered by a thrown error.  Starting from
a given attemptsMade and the number of attempts remaining, the job is
delivered while attempts remain; a delivery whose processing throws is
followed by a redelivery when attempts remain.  The result counts
deliveries. -/
def deliveriesFrom (exec : Nat → Except AppError ProcResult) (made : Nat) :
    Nat → Nat
  | 0 => 0
  | remaining + 1 =>
    match exec made with
    | .ok _ => 1
    | .error _ => 1 + deliveriesFrom exec (made + 1) remaining

/-- Total number of deliveries of a job enqueued with the given attempts
option. -/
def transportDeliveries (exec : Nat → Except AppError ProcResult)
    (attempts : Nat) : Nat :=
  deliveriesFrom exec 0 attempts

end TaskProcessorService

namespace OverdueTasksService

/-- Eligibility predicate of the scanner query: dueDate < now, dueDate not
null, status not COMPLETED. -/
def isEligible (now : Int) (t : Task) : Bool :=
  (match t.dueDate with
   | some d => decide (d < now)
   | none => false)
  && !(t.status == TaskStatus.COMPLETED)

/-- Ordering used by orderBy task.dueDate ASC: comparison on the due
timestamps (eligible rows always carry one; a null sorts first here, the
claims never depend on that corner). -/
def dueLe (a b : Task) : Bool :=
  (a.dueDate.getD 0) ≤ (b.dueDate.getD 0)

/-- Insertion step of the due-date sort. -/
def insertByDue (t : Task) : List Task → List Task
  | [] => [t]
  | x :: xs => if dueLe t x then t :: x :: xs else x :: insertByDue t xs

/-- Sort by due date ascending (insertion sort — the model only relies on it
being a length-preserving reordering). -/
def sortByDue (l : List Task) : List Task := l.foldr insertByDue []

/-- The rows returned by the scanner query: eligible tasks ordered by due
date ascending, capped by limit(MAX_TASKS_PER_RUN). -/
def queryOverdue (db : List Task) (now : Int) : List Task :=
  (sortByDue (db.filter (isEligible now))).take MAX_TASKS_PER_RUN

/-- Observable outcome of one scanner run: the count found by the query, the
totalQueued counter, the jobs that reached the queue, and whether the
backlog warning was emitted. -/
structure ScanResult where
  found : Nat
  totalQueued : Nat
  jobs : List QueueJob
  warned : Bool
deriving DecidableEq, Repr

/-- OverdueTasksService.checkOverdueTasks: run the capped query; return
early when it is empty; chunk the ids into BATCH_SIZE batches and build one
overdue-tasks-notification job per batch; submit them all through one
addBulk call, falling back to per-batch add calls when the bulk call throws,
skipping batches whose individual add throws; finally warn exactly when the
found count exceeds MAX_TASKS_PER_RUN.  bulk injects the addBulk outcome and
indivFails the outcome of the i-th fallback add. -/
def checkOverdueTasks (db : List Task) (now : Int) (bulk : QueueAddResult)
    (indivFails : Nat → Bool) : ScanResult :=
  let overdueTasks := queryOverdue db now
  if overdueTasks.length = 0 then
    { found := 0, totalQueued := 0, jobs := [], warned := false }
  else
    let batches := TaskProcessorService.chunkArray (overdueTasks.map (fun t => t.id))
      BATCH_SIZE
    let mkJob : List String → QueueJob := fun b =>
      ⟨"overdue-tasks-notification", .overdue b BATCH_SIZE now⟩
    match bulk with
    | .ok =>
      { found := overdueTasks.length
        totalQueued := overdueTasks.length
        jobs := batches.map mkJob
        warned := decide (overdueTasks.length > MAX_TASKS_PER_RUN) }
    | .fail =>
      let okBatches := (batches.enum.filter (fun p => !indivFails p.1)).map (fun p => p.2)
      { found := overdueTasks.length
        totalQueued := (okBatches.map (fun b => b.length)).sum
        jobs := okBatches.map mkJob
        warned := decide (overdueTasks.length > MAX_TASKS_PER_RUN) }

end OverdueTasksService

/-- Failure predicate for one id inside an overdue batch: the update throws
exactly when the store is down or the id matches no task. -/
def TaskProcessorService.idFails (env : TaskProcessorService.Env) (id : String) : Bool :=
  env.dbDown || !(TasksService.findTask env.db id).isSome

/-- Error message recorded for a failing id inside an overdue batch. -/
def TaskProcessorService.errMsg (env : TaskProcessorService.Env) (id : String) : String :=
  if env.dbDown then "database connection lost"
  else "Task with ID " ++ id ++ " not found"

/-- Relational store of the batchComplete scenario of the spec: exactly the
tasks a and b exist. -/
def dbAB : List Task :=
  [{ id := "a", status := .PENDING }, { id := "b", status := .PENDING }]

/-- A connected Redis store holding no keys. -/
def freshStore : CacheService.RedisState := { connected := true }

/-- A request carrying both a connection-derived address and an
x-forwarded-for header, the case separating the two precedence orders. -/
def reqBoth : RateLimitGuard.Request :=
  { ip := some "9.9.9.9", xForwardedFor := some "1.1.1.1" }

/-- Worker environment over an empty relational store. -/
def envEmpty : TaskProcessorService.Env := { db := [] }

/-- A delivered job whose type tag matches no registered handler, at a given
attempt. -/
def unknownJob (n : Nat) : TaskProcessorService.RawJob :=
  { name := "bogus-type", attemptsMade := n }

/-- A relational store holding 1001 overdue, non-completed tasks: the
smallest backlog at which the capped query returns exactly the per-run
ceiling while eligible work remains. -/
def overdueBacklogDb : List Task :=
  List.replicate 1001 { id := "t", status := .PENDING, dueDate := some (-1) }

/-- C1: a job whose type tag matches no handler throws BadRequestException
and shouldRetry classifies that failure terminal, yet process rethrows the
error on every path, so under the transport contract (retry triggered by a
thrown error, per-job attempts option) a job enqueued with the attempts
option of QUEUE_JOB_OPTIONS is delivered 3 times, not once: the terminal
classification does not suppress redelivery. -/
theorem unknown_tag_terminal_yet_redelivered :
    TaskProcessorService.process envEmpty (unknownJob 0)
      = .error (.badRequest "Unknown job type: bogus-type")
    ∧ TaskProcessorService.shouldRetry
        (.badRequest "Unknown job type: bogus-type") (unknownJob 0) = false
    ∧ TaskProcessorService.transportDeliveries
        (fun n => TaskProcessorService.process envEmpty (unknownJob n))
        QUEUE_JOB_OPTIONS_attempts = 3
    ∧ TaskProcessorService.transportDeliveries
        (fun n => TaskProcessorService.process envEmpty (unknownJob n))
        QUEUE_JOB_OPTIONS_attempts ≠ 1 :=
  ⟨rfl, rfl, rfl, by decide⟩

/-- C2 counterexample: on the store where only a and b exist, batchComplete
with input [a, b, missing] enqueues one job per input id — 3 notification
jobs, not the 2 the claim states. -/
theorem batchComplete_enqueues_three_not_two :
    (TasksService.batchComplete dbAB [] ["a", "b", "missing"] true .ok).2.2.length = 3
    ∧ ¬ (TasksService.batchComplete dbAB [] ["a", "b", "missing"] true .ok).2.2.length = 2 := by
  constructor
  · rfl
  · intro h
    rw [show (TasksService.batchComplete dbAB [] ["a", "b", "missing"] true
      .ok).2.2.length = 3 from rfl] at h
    omega

/-- C2 amended: batchComplete([a, b, missing]) over the store where only a
and b exist reports success = 2 (rows affected) and failed = 1 (requested
minus affected), and enqueues exactly 3 notification jobs — one per input
id, each carrying that id and COMPLETED, including one for the missing
id. -/
theorem batchComplete_scenario :
    (TasksService.batchComplete dbAB [] ["a", "b", "missing"] true .ok).1 = .ok (2, 1)
    ∧ (TasksService.batchComplete dbAB [] ["a", "b", "missing"] true .ok).2.2
      = [⟨"task-status-update", .statusUpdate "a" .COMPLETED⟩,
         ⟨"task-status-update", .statusUpdate "b" .COMPLETED⟩,
         ⟨"task-status-update", .statusUpdate "missing" .COMPLETED⟩] :=
  ⟨rfl, rfl⟩

/-- C5: when the transaction commits and the post-commit enqueue throws,
create still returns the created record, the record is persisted, and no
error propagates; the queue is left unchanged. -/
theorem create_enqueue_failure_swallowed
    (db : List Task) (queue : List QueueJob) (savedTask : Task) :
    (TasksService.create db queue savedTask true .fail).1 = .ok savedTask
    ∧ savedTask ∈ (TasksService.create db queue savedTask true .fail).2.1
    ∧ (TasksService.create db queue savedTask true .fail).2.2 = queue := by
  refine ⟨rfl, ?_, rfl⟩
  simp [TasksService.create]

/-- C7 counterexample: for a request carrying both a connection address and
an x-forwarded-for header, the code selects the connection address (raw
request.ip comes first in the or-chain) while the claimed precedence selects
the forwarded-for first hop; the resulting identifiers differ for an
injective hash. -/
theorem identifier_precedence_counterexample :
    RateLimitGuard.selectedIp reqBoth = "9.9.9.9"
    ∧ RateLimitGuard.specSelectedIp reqBoth = "1.1.1.1"
    ∧ RateLimitGuard.getClientIdentifier (fun s => s) reqBoth
        ≠ (((fun s : String => s) (RateLimitGuard.specSelectedIp reqBoth)).take 16) := by
  refine ⟨by decide, by decide, by decide⟩

/-- C7 amended: for every inbound request the identifier is derived with the
precedence of the or-chain in the code — request.ip first, else
connection.remoteAddress, else the trimmed first hop of x-forwarded-for,
else x-real-ip, else the sentinel unknown, each alternative skipped when
falsy — and the chosen raw address is passed through the one-way hash and
truncated to 16 characters. -/
theorem getClientIdentifier_precedence (hash : String → String)
    (r : RateLimitGuard.Request) :
    (jsTruthy r.ip = true →
      RateLimitGuard.getClientIdentifier hash r = (hash (r.ip.getD "")).take 16)
    ∧ (jsTruthy r.ip = false → jsTruthy r.connectionRemoteAddress = true →
      RateLimitGuard.getClientIdentifier hash r
        = (hash (r.connectionRemoteAddress.getD "")).take 16)
    ∧ (jsTruthy r.ip = false → jsTruthy r.connectionRemoteAddress = false →
      jsTruthy (r.xForwardedFor.map RateLimitGuard.xffFirstHop) = true →
      RateLimitGuard.getClientIdentifier hash r
        = (hash (RateLimitGuard.xffFirstHop (r.xForwardedFor.getD ""))).take 16)
    ∧ (jsTruthy r.ip = false → jsTruthy r.connectionRemoteAddress = false →
      jsTruthy (r.xForwardedFor.map RateLimitGuard.xffFirstHop) = false →
      jsTruthy r.xRealIp = true →
      RateLimitGuard.getClientIdentifier hash r = (hash (r.xRealIp.getD "")).take 16)
    ∧ (jsTruthy r.ip = false → jsTruthy r.connectionRemoteAddress = false →
      jsTruthy (r.xForwardedFor.map RateLimitGuard.xffFirstHop) = false →
      jsTruthy r.xRealIp = false →
      RateLimitGuard.getClientIdentifier hash r = (hash "unknown").take 16) := by
  refine ⟨?_, ?_, ?_, ?_, ?_⟩
  · intro h1
    simp [RateLimitGuard.getClientIdentifier, RateLimitGuard.selectedIp, h1]
  · intro h1 h2
    simp [RateLimitGuard.getClientIdentifier, RateLimitGuard.selectedIp, h1, h2]
  · intro h1 h2 h3
    cases hx : r.xForwardedFor with
    | none => rw [hx] at h3; simp [jsTruthy] at h3
    | some s =>
      rw [hx] at h3
      simp only [Option.map_some'] at h3
      simp [RateLimitGuard.getClientIdentifier, RateLimitGuard.selectedIp, h1, h2, hx,
        h3]
  · intro h1 h2 h3 h4
    simp [RateLimitGuard.getClientIdentifier, RateLimitGuard.selectedIp, h1, h2, h3, h4]
  · intro h1 h2 h3 h4
    simp [RateLimitGuard.getClientIdentifier, RateLimitGuard.selectedIp, h1, h2, h3, h4]

/-- Witness for getClientIdentifier_precedence at the concrete request of the
counterexample and the identity hash. -/
theorem getClientIdentifier_precedence_witness :
    RateLimitGuard.getClientIdentifier (fun s => s) reqBoth = "9.9.9.9" := by
  have h := getClientIdentifier_precedence (fun s => s) reqBoth
  exact (h.1 (by decide)).trans (by decide)

/-- C8: an admission check under a failed Counter Store Facade — the store
disconnected or the INCR call throwing — returns admission with the store
untouched and no error surfacing, while a capacity rejection is still raised
when the incremented count exceeds the limit even though the TTL call fails
(the reset time then falls back to now + windowMs). -/
theorem rate_limit_fail_open (st : CacheService.RedisState) (identifier : String)
    (limit windowMs : Nat) (now : Int) :
    ((st.connected = false ∨ st.incrFails = true) →
      RateLimitGuard.handleRateLimit st identifier limit windowMs now = (.ok true, st))
    ∧ (∀ c : Nat, st.connected = true → st.incrFails = false → st.ttlFails = true →
      CacheService.lookupNat st.counts
        (CacheService.buildKey "rate_limit" identifier) = some c →
      limit < c + 1 →
      (RateLimitGuard.handleRateLimit st identifier limit windowMs now).1
        = .error { limit := limit, remaining := 0, resetAt := now + (windowMs : Int) }) := by
  constructor
  · intro h
    rcases h with h | h <;>
      simp [RateLimitGuard.handleRateLimit, CacheService.increment, h]
  · intro c hconn hfail httl hlook hlt
    simp only [RateLimitGuard.handleRateLimit, CacheService.increment, hconn, hfail,
      hlook, Bool.not_true, Bool.false_eq_true, if_false, Option.getD_some]
    split
    · simp [CacheService.getTTL, httl, hlt]
    · simp [CacheService.getTTL, httl, hlt]

/-- Witness for rate_limit_fail_open on a disconnected store. -/
theorem rate_limit_fail_open_witness :
    RateLimitGuard.handleRateLimit { connected := false } "x" 5 60000 0
      = (.ok true, { connected := false }) :=
  (rate_limit_fail_open { connected := false } "x" 5 60000 0).1 (Or.inl rfl)

/-- Helper: the first admission check on a fresh store admits, stores count
1 and fixes the 60-second window expiry. -/
lemma rl_step1 (identifier : String) (now : Int) :
    RateLimitGuard.handleRateLimit freshStore identifier 5 60000 now
      = (.ok true,
         { connected := true, incrFails := false, ttlFails := false,
           counts := [(CacheService.buildKey "rate_limit" identifier, 1)],
           expiries := [(CacheService.buildKey "rate_limit" identifier, 60)] }) := by
  simp only [RateLimitGuard.handleRateLimit, CacheService.increment,
    CacheService.lookupNat, CacheService.setEntry, CacheService.ttlTruthy, freshStore,
    CacheService.getTTL]
  norm_num [List.find?, List.filter]

/-- Helper: an admission check at a stored count below the limit admits and
bumps the count, leaving the expiry untouched. -/
lemma rl_step_mid (identifier : String) (now : Int) (k k2 : Nat) (hk : 1 ≤ k)
    (hk5 : k < 5) (hk2 : k2 = k + 1) :
    RateLimitGuard.handleRateLimit
      { connected := true, incrFails := false, ttlFails := false,
        counts := [(CacheService.buildKey "rate_limit" identifier, k)],
        expiries := [(CacheService.buildKey "rate_limit" identifier, 60)] }
      identifier 5 60000 now
      = (.ok true,
         { connected := true, incrFails := false, ttlFails := false,
           counts := [(CacheService.buildKey "rate_limit" identifier, k2)],
           expiries := [(CacheService.buildKey "rate_limit" identifier, 60)] }) := by
  have hne : ¬ (k + 1 = 1) := by omega
  have hle : ¬ (k + 1 > 5) := by omega
  subst hk2
  simp only [RateLimitGuard.handleRateLimit, CacheService.increment,
    CacheService.lookupNat, CacheService.setEntry, CacheService.ttlTruthy,
    CacheService.getTTL]
  norm_num [List.find?, List.filter, hne, hle]

/-- Helper: the admission check at stored count 5 rejects with the payload
of the source, its reset time computed from the stored window ttl. -/
lemma rl_step_sixth (identifier : String) (now : Int) :
    RateLimitGuard.handleRateLimit
      { connected := true, incrFails := false, ttlFails := false,
        counts := [(CacheService.buildKey "rate_limit" identifier, 5)],
        expiries := [(CacheService.buildKey "rate_limit" identifier, 60)] }
      identifier 5 60000 now
      = (.error { limit := 5, remaining := 0, resetAt := now + 60000 },
         { connected := true, incrFails := false, ttlFails := false,
           counts := [(CacheService.buildKey "rate_limit" identifier, 6)],
           expiries := [(CacheService.buildKey "rate_limit" identifier, 60)] }) := by
  simp only [RateLimitGuard.handleRateLimit, CacheService.increment,
    CacheService.lookupNat, CacheService.setEntry, CacheService.ttlTruthy,
    CacheService.getTTL]
  norm_num [List.find?, List.filter]

/-- C3: from a fresh connected store, six admission checks by the same
hashed identity under limit 5 and a 60-second window admit five times, and
the sixth is rejected with limit 5, remaining 0, and a resetAt computed from
the remaining window ttl that lies strictly in the future. -/
theorem sixth_admission_rejected (identifier : String) (now : Int) :
    (RateLimitGuard.admissionTrace freshStore identifier 5 60000 now 6).1
      = [.ok true, .ok true, .ok true, .ok true, .ok true,
         .error { limit := 5, remaining := 0, resetAt := now + 60000 }]
    ∧ now < now + 60000 := by
  have s1 := rl_step1 identifier now
  have s2 := rl_step_mid identifier now 1 2 (by omega) (by omega) rfl
  have s3 := rl_step_mid identifier now 2 3 (by omega) (by omega) rfl
  have s4 := rl_step_mid identifier now 3 4 (by omega) (by omega) rfl
  have s5 := rl_step_mid identifier now 4 5 (by omega) (by omega) rfl
  have s6 := rl_step_sixth identifier now
  refine ⟨?_, by omega⟩
  simp only [RateLimitGuard.admissionTrace, s1, s2, s3, s4, s5, s6]
  rfl

/-- Helper: lookup after setEntry on the same key. -/
lemma lookupNat_setEntry_self (m : List (String × Nat)) (k : String) (v : Nat) :
    CacheService.lookupNat (CacheService.setEntry m k v) k = some v := by
  simp [CacheService.lookupNat, CacheService.setEntry, List.find?]

/-- Helper: increment on a connected store whose INCR call succeeds, in
closed form. -/
lemma increment_healthy (st : CacheService.RedisState) (key ns : String) (t : Option Nat)
    (hconn : st.connected = true) (hfail : st.incrFails = false) :
    CacheService.increment st key ns t
      = ((CacheService.lookupNat st.counts (CacheService.buildKey ns key)).getD 0 + 1,
         { st with
           counts := CacheService.setEntry st.counts (CacheService.buildKey ns key)
             ((CacheService.lookupNat st.counts (CacheService.buildKey ns key)).getD 0 + 1),
           expiries :=
             if ((CacheService.lookupNat st.counts (CacheService.buildKey ns key)).getD 0 + 1 = 1
                  ∧ CacheService.ttlTruthy t = true) then
               CacheService.setEntry st.expiries (CacheService.buildKey ns key) (t.getD 0)
             else st.expiries }) := by
  simp [CacheService.increment, hconn, hfail]
  split <;> simp_all

/-- Helper invariant for repeated increments of a fresh key on a healthy
store: after N calls the last call returned N, the flags are unchanged, the
stored count is N, and the expiry map is the one the first call produced. -/
lemma iterate_increment_spec (st : CacheService.RedisState) (key ns : String)
    (t : Option Nat) (hconn : st.connected = true) (hfail : st.incrFails = false)
    (hfresh : CacheService.lookupNat st.counts (CacheService.buildKey ns key) = none) :
    ∀ N, 1 ≤ N →
      (CacheService.iterateIncrement st key ns t N).1 = N
      ∧ (CacheService.iterateIncrement st key ns t N).2.connected = true
      ∧ (CacheService.iterateIncrement st key ns t N).2.incrFails = false
      ∧ CacheService.lookupNat (CacheService.iterateIncrement st key ns t N).2.counts
          (CacheService.buildKey ns key) = some N
      ∧ (CacheService.iterateIncrement st key ns t N).2.expiries
          = (CacheService.iterateIncrement st key ns t 1).2.expiries := by
  intro N
  induction N with
  | zero => omega
  | succ n ih =>
    intro _
    by_cases hn : 1 ≤ n
    · obtain ⟨ih1, ih2, ih3, ih4, ih5⟩ := ih hn
      have hne : ¬ ((n : Nat) + 1 = 1) := by omega
      rw [show (CacheService.iterateIncrement st key ns t (n + 1))
          = CacheService.increment (CacheService.iterateIncrement st key ns t n).2 key ns t
        from rfl]
      rw [increment_healthy _ key ns t ih2 ih3, ih4]
      refine ⟨by simp, by simp [ih2], by simp [ih3], by simp [lookupNat_setEntry_self], ?_⟩
      simp [hne, ih5]
    · have hn0 : n = 0 := by omega
      subst hn0
      rw [show (CacheService.iterateIncrement st key ns t (0 + 1))
          = CacheService.increment st key ns t from rfl]
      rw [increment_healthy st key ns t hconn hfail, hfresh]
      refine ⟨by simp, by simp [hconn], by simp [hfail], by simp [lookupNat_setEntry_self], rfl⟩

/-- C4: on a healthy store and a fresh counter key, the Nth increment call
returns exactly N; an increment call that changes the expiry map — on any
store state — is one that returned count 1; and no increment after the
first changes the expiry map of the window. -/
theorem increment_nth_and_ttl_once (st : CacheService.RedisState) (key ns : String)
    (ttl : Nat) (hconn : st.connected = true) (hfail : st.incrFails = false)
    (hfresh : CacheService.lookupNat st.counts (CacheService.buildKey ns key) = none) :
    (∀ N, 1 ≤ N → (CacheService.iterateIncrement st key ns (some ttl) N).1 = N)
    ∧ (∀ st2 : CacheService.RedisState,
        (CacheService.increment st2 key ns (some ttl)).2.expiries ≠ st2.expiries →
        (CacheService.increment st2 key ns (some ttl)).1 = 1)
    ∧ (∀ N, 1 ≤ N →
        (CacheService.iterateIncrement st key ns (some ttl) N).2.expiries
          = (CacheService.iterateIncrement st key ns (some ttl) 1).2.expiries) := by
  refine ⟨fun N hN => (iterate_increment_spec st key ns (some ttl) hconn hfail hfresh N hN).1,
    ?_,
    fun N hN => (iterate_increment_spec st key ns (some ttl) hconn hfail hfresh N hN).2.2.2.2⟩
  intro st2 hch
  cases hb1 : st2.connected with
  | false =>
    exfalso
    apply hch
    simp [CacheService.increment, hb1]
  | true =>
    cases hb2 : st2.incrFails with
    | true =>
      exfalso
      apply hch
      simp [CacheService.increment, hb1, hb2]
    | false =>
      rw [increment_healthy st2 key ns (some ttl) hb1 hb2] at hch ⊢
      by_cases hcond : ((CacheService.lookupNat st2.counts
            (CacheService.buildKey ns key)).getD 0 + 1 = 1
          ∧ CacheService.ttlTruthy (some ttl) = true)
      · exact hcond.1
      · exfalso
        apply hch
        exact if_neg hcond

/-- Witness for increment_nth_and_ttl_once: on the fresh connected store the
third increment of a fresh key returns 3. -/
theorem increment_nth_and_ttl_once_witness :
    (CacheService.iterateIncrement freshStore "k" "rate_limit" (some 60) 3).1 = 3 :=
  (increment_nth_and_ttl_once freshStore "k" "rate_limit" 60 rfl rfl rfl).1 3 (by omega)

/-- C6: for an update of an existing task, when the merged record keeps the
pre-update status no notification job is enqueued for any queue outcome;
when the merged status differs, exactly one task-status-update job is
appended, carrying the task id and the new status (merge preserves the
id). -/
theorem update_notifies_iff_status_changed (db : List Task) (queue : List QueueJob)
    (id : String) (dto : UpdateTaskDto) (task : Task)
    (hfind : TasksService.findTask db id = some task) :
    ((TasksService.mergeTask task dto).status = task.status →
      ∀ enq, (TasksService.update db queue id dto enq).2.2 = queue)
    ∧ ((TasksService.mergeTask task dto).status ≠ task.status →
      (TasksService.update db queue id dto .ok).2.2
        = queue ++ [⟨"task-status-update",
            .statusUpdate task.id (TasksService.mergeTask task dto).status⟩])
    ∧ (TasksService.mergeTask task dto).id = task.id := by
  refine ⟨?_, ?_, rfl⟩
  · intro hsame enq
    simp only [TasksService.update, hfind]
    have hcond : ¬ (task.status ≠ (TasksService.mergeTask task dto).status) := by
      simp [hsame]
    rw [if_neg hcond]
    split <;> rfl
  · intro hdiff
    simp only [TasksService.update, hfind]
    rw [if_pos (by exact fun h => hdiff h.symm)]
    split <;> rfl

/-- Witness for update_notifies_iff_status_changed: updating task a of the
two-task store to IN_PROGRESS enqueues exactly the one notification job. -/
theorem update_notifies_iff_status_changed_witness :
    (TasksService.update dbAB [] "a" { status := some .IN_PROGRESS } .ok).2.2
      = [⟨"task-status-update", .statusUpdate "a" .IN_PROGRESS⟩] := by
  have h := update_notifies_iff_status_changed dbAB [] "a"
    { status := some .IN_PROGRESS } { id := "a", status := .PENDING } rfl
  exact (h.2.1 (by decide)).trans (by decide)

/-- Helper: insertion preserves length plus one. -/
lemma length_insertByDue (t : Task) (l : List Task) :
    (OverdueTasksService.insertByDue t l).length = l.length + 1 := by
  induction l with
  | nil => rfl
  | cons x xs ih =>
    simp only [OverdueTasksService.insertByDue]
    split <;> simp [ih]

/-- Helper: the due-date sort is length preserving. -/
lemma length_sortByDue (l : List Task) :
    (OverdueTasksService.sortByDue l).length = l.length := by
  induction l with
  | nil => rfl
  | cons x xs ih =>
    simp [OverdueTasksService.sortByDue, List.foldr, length_insertByDue]
    simpa [OverdueTasksService.sortByDue] using ih

/-- Helper: every task of the backlog store is eligible at time 0. -/
lemma overdueBacklogDb_filter :
    overdueBacklogDb.filter (OverdueTasksService.isEligible 0) = overdueBacklogDb := by
  unfold overdueBacklogDb
  apply List.filter_eq_self.mpr
  intro a ha
  rw [List.eq_of_mem_replicate ha]
  decide

/-- Helper: the backlog store holds 1001 tasks. -/
lemma overdueBacklogDb_length : overdueBacklogDb.length = 1001 := by
  unfold overdueBacklogDb
  exact List.length_replicate _ _

/-- Helper: the capped query on the backlog store returns exactly the
ceiling. -/
lemma queryOverdue_backlog_length :
    (OverdueTasksService.queryOverdue overdueBacklogDb 0).length = 1000 := by
  unfold OverdueTasksService.queryOverdue
  rw [List.length_take, length_sortByDue, overdueBacklogDb_filter,
    overdueBacklogDb_length]
  unfold MAX_TASKS_PER_RUN
  omega

/-- C9: on a store with 1001 eligible overdue tasks the capped query finds
exactly the 1000-task per-run ceiling — backlog remains — yet the run does
not warn; indeed the warning condition compares the capped count against the
ceiling with a strict inequality, so no run of the scanner ever warns, for
any store, clock, or queue outcome. -/
theorem overdue_ceiling_warning_never_fires :
    (overdueBacklogDb.filter (OverdueTasksService.isEligible 0)).length = 1001
    ∧ (OverdueTasksService.checkOverdueTasks overdueBacklogDb 0 .ok (fun _ => false)).found
        = 1000
    ∧ (OverdueTasksService.checkOverdueTasks overdueBacklogDb 0 .ok (fun _ => false)).warned
        = false
    ∧ (∀ (db : List Task) (now : Int) (bulk : QueueAddResult) (indivFails : Nat → Bool),
        (OverdueTasksService.checkOverdueTasks db now bulk indivFails).warned = false) := by
  have hwarn : ∀ (db : List Task) (now : Int) (bulk : QueueAddResult)
      (indivFails : Nat → Bool),
      (OverdueTasksService.checkOverdueTasks db now bulk indivFails).warned = false := by
    intro db now bulk indivFails
    have hle : (OverdueTasksService.queryOverdue db now).length ≤ MAX_TASKS_PER_RUN := by
      unfold OverdueTasksService.queryOverdue
      rw [List.length_take]
      exact Nat.min_le_left _ _
    have hnotgt : ¬ ((OverdueTasksService.queryOverdue db now).length
        > MAX_TASKS_PER_RUN) := by omega
    cases bulk <;>
      simp only [OverdueTasksService.checkOverdueTasks] <;>
      split <;>
      simp [hnotgt]
  refine ⟨?_, ?_, hwarn overdueBacklogDb 0 .ok (fun _ => false), hwarn⟩
  · rw [overdueBacklogDb_filter]
    exact overdueBacklogDb_length
  · simp only [OverdueTasksService.checkOverdueTasks]
    rw [queryOverdue_backlog_length]
    norm_num

/-- Helper: flattening the fuelled chunking recovers the list when the fuel
covers its length. -/
lemma chunkAux_flatten {A : Type} (size : Nat) (hsz : 0 < size) :
    ∀ (fuel : Nat) (l : List A), l.length ≤ fuel →
      (TaskProcessorService.chunkAux size l fuel).flatten = l := by
  intro fuel
  induction fuel with
  | zero =>
    intro l hl
    have : l = [] := List.length_eq_zero.mp (Nat.le_zero.mp hl)
    subst this
    rfl
  | succ n ih =>
    intro l hl
    cases l with
    | nil => rfl
    | cons x xs =>
      simp only [TaskProcessorService.chunkAux, List.flatten_cons]
      rw [ih ((x :: xs).drop size)
        (by simp only [List.length_drop, List.length_cons] at hl ⊢ ; omega)]
      exact List.take_append_drop size (x :: xs)

/-- Helper: flattening the chunks of a positive size recovers the list. -/
lemma chunkArray_flatten {A : Type} (l : List A) (size : Nat) (hsz : 0 < size) :
    (TaskProcessorService.chunkArray l size).flatten = l := by
  unfold TaskProcessorService.chunkArray
  rw [if_neg (by omega)]
  exact chunkAux_flatten size hsz l.length l le_rfl

/-- Helper: folding chunk by chunk equals folding the flattened list. -/
lemma foldl_chunks {A B : Type} (g : B → A → B) (chunks : List (List A)) (init : B) :
    chunks.foldl (fun acc chunk => chunk.foldl g acc) init
      = chunks.flatten.foldl g init := by
  induction chunks generalizing init with
  | nil => rfl
  | cons c cs ih => simp [List.foldl_append, ih]

/-- Helper: an id-preserving map does not change whether a lookup by id
succeeds. -/
lemma find?_isSome_map_of_id (db : List Task) (g : Task → Task)
    (hg : ∀ t, (g t).id = t.id) (j : String) :
    (List.find? (fun t => t.id == j) (db.map g)).isSome
      = (List.find? (fun t => t.id == j) db).isSome := by
  induction db with
  | nil => rfl
  | cons x xs ih =>
    rw [List.map_cons]
    rw [List.find?_cons, List.find?_cons]
    have hgx : ((g x).id == j) = (x.id == j) := by rw [hg]
    rw [hgx]
    cases hx : (x.id == j) with
    | true => rfl
    | false => exact ih

/-- Helper: one id of an overdue batch either fails — bumping failed and
appending its (id, message) pair — or succeeds, bumping processed and
leaving the set of present ids and the outage flag unchanged. -/
lemma processOneId_cases (acc : TaskProcessorService.BatchAcc) (id : String) :
    (TaskProcessorService.idFails acc.env id = true →
      TaskProcessorService.processOneId acc id
        = { acc with
            failed := acc.failed + 1,
            errors := acc.errors ++ [(id, TaskProcessorService.errMsg acc.env id)] })
    ∧ (TaskProcessorService.idFails acc.env id = false →
      (TaskProcessorService.processOneId acc id).processed = acc.processed + 1
      ∧ (TaskProcessorService.processOneId acc id).failed = acc.failed
      ∧ (TaskProcessorService.processOneId acc id).errors = acc.errors
      ∧ (TaskProcessorService.processOneId acc id).env.dbDown = acc.env.dbDown
      ∧ ∀ j,
        (TasksService.findTask (TaskProcessorService.processOneId acc id).env.db j).isSome
          = (TasksService.findTask acc.env.db j).isSome) := by
  constructor
  · intro hf
    cases hd : acc.env.dbDown with
    | true =>
      simp [TaskProcessorService.processOneId, TaskProcessorService.updateStatus, hd,
        TaskProcessorService.errMsg]
    | false =>
      have hnone : TasksService.findTask acc.env.db id = none := by
        cases hcase : TasksService.findTask acc.env.db id with
        | none => rfl
        | some t =>
          exfalso
          simp [TaskProcessorService.idFails, hd, hcase] at hf
      simp [TaskProcessorService.processOneId, TaskProcessorService.updateStatus, hd,
        hnone, TaskProcessorService.errMsg]
  · intro hok
    have hparts := hok
    simp only [TaskProcessorService.idFails, Bool.or_eq_false_iff,
      Bool.not_eq_false'] at hparts
    obtain ⟨hd, hsome⟩ := hparts
    obtain ⟨t, ht⟩ := Option.isSome_iff_exists.mp hsome
    have hstep : TaskProcessorService.processOneId acc id
        = { acc with
            processed := acc.processed + 1,
            env := { acc.env with
              db := acc.env.db.map (fun u : Task =>
                if u.id == id then { t with status := TaskStatus.PENDING } else u) } } := by
      simp [TaskProcessorService.processOneId, TaskProcessorService.updateStatus, hd, ht]
    rw [hstep]
    refine ⟨rfl, rfl, rfl, rfl, ?_⟩
    intro j
    have hp : (t.id == id) = true := by
      have := List.find?_some (p := fun u : Task => u.id == id) (by exact ht)
      exact this
    refine find?_isSome_map_of_id acc.env.db _ ?_ j
    intro u
    by_cases hu : (u.id == id) = true
    · simp only [if_pos hu]
      show t.id = u.id
      rw [eq_of_beq hp, eq_of_beq hu]
    · simp [hu]

/-- Helper: a filter and its complement split the length of a list. -/
lemma length_filter_split {A : Type} (p : A → Bool) (l : List A) :
    (l.filter (fun a => !p a)).length + (l.filter p).length = l.length := by
  induction l with
  | nil => rfl
  | cons x xs ih =>
    cases hx : p x <;> simp [List.filter_cons, hx] <;> omega

/-- Helper invariant of the batch fold: starting from any accumulator whose
environment fails the same ids as env0, the fold adds the number of
succeeding ids to processed, the number of failing ids to failed, and
appends one (id, message) pair per failing id, in order. -/
lemma foldl_processOneId_spec (env0 : TaskProcessorService.Env) (ids : List String) :
    ∀ acc : TaskProcessorService.BatchAcc,
      (∀ j, TaskProcessorService.idFails acc.env j = TaskProcessorService.idFails env0 j) →
      acc.env.dbDown = env0.dbDown →
      (ids.foldl TaskProcessorService.processOneId acc).processed
          = acc.processed + (ids.filter (fun i => !TaskProcessorService.idFails env0 i)).length
      ∧ (ids.foldl TaskProcessorService.processOneId acc).failed
          = acc.failed + (ids.filter (TaskProcessorService.idFails env0)).length
      ∧ (ids.foldl TaskProcessorService.processOneId acc).errors
          = acc.errors ++ (ids.filter (TaskProcessorService.idFails env0)).map
              (fun i => (i, TaskProcessorService.errMsg env0 i))
      ∧ (∀ j, TaskProcessorService.idFails
            (ids.foldl TaskProcessorService.processOneId acc).env j
          = TaskProcessorService.idFails env0 j)
      ∧ (ids.foldl TaskProcessorService.processOneId acc).env.dbDown = env0.dbDown := by
  induction ids with
  | nil =>
    intro acc hinv hdown
    refine ⟨by simp, by simp, by simp, hinv, hdown⟩
  | cons i rest ih =>
    intro acc hinv hdown
    have hmsg : TaskProcessorService.errMsg acc.env i = TaskProcessorService.errMsg env0 i := by
      unfold TaskProcessorService.errMsg
      rw [hdown]
    cases hf : TaskProcessorService.idFails env0 i with
    | true =>
      have hstep := (processOneId_cases acc i).1 ((hinv i).trans hf)
      have hinv2 : ∀ j, TaskProcessorService.idFails
          (TaskProcessorService.processOneId acc i).env j
          = TaskProcessorService.idFails env0 j := by
        intro j
        rw [hstep]
        exact hinv j
      have hdown2 : (TaskProcessorService.processOneId acc i).env.dbDown = env0.dbDown := by
        rw [hstep]
        exact hdown
      obtain ⟨p1, p2, p3, p4, p5⟩ := ih (TaskProcessorService.processOneId acc i) hinv2 hdown2
      rw [List.foldl_cons]
      refine ⟨?_, ?_, ?_, p4, p5⟩
      · rw [p1, hstep]
        simp [List.filter_cons, hf]
      · rw [p2, hstep]
        simp [List.filter_cons, hf]
        omega
      · rw [p3, hstep]
        simp [List.filter_cons, hf, hmsg]
    | false =>
      obtain ⟨q1, q2, q3, q4, q5⟩ := (processOneId_cases acc i).2 ((hinv i).trans hf)
      have hinv2 : ∀ j, TaskProcessorService.idFails
          (TaskProcessorService.processOneId acc i).env j
          = TaskProcessorService.idFails env0 j := by
        intro j
        rw [← hinv j]
        unfold TaskProcessorService.idFails
        rw [q4, q5 j]
      have hdown2 : (TaskProcessorService.processOneId acc i).env.dbDown = env0.dbDown := by
        rw [q4, hdown]
      obtain ⟨p1, p2, p3, p4, p5⟩ := ih (TaskProcessorService.processOneId acc i) hinv2 hdown2
      rw [List.foldl_cons]
      refine ⟨?_, ?_, ?_, p4, p5⟩
      · rw [p1, q1]
        simp [List.filter_cons, hf]
        omega
      · rw [p2, q2]
        simp [List.filter_cons, hf]
      · rw [p3, q3]
        simp [List.filter_cons, hf]

/-- C10: the overdue batch handler returns total = input length, processed
and failed partitioning the input by the per-id failure predicate, exactly
one error entry per failing id carrying that id, and a success flag that is
true exactly when failed = 0 — one failing id never aborts the rest. -/
theorem overdue_batch_aggregate (env : TaskProcessorService.Env)
    (taskIds : List String) (batchSize : Nat) (h : 0 < batchSize) :
    TaskProcessorService.processOverdueTaskBatch env taskIds batchSize
      = .overdueBatch ((taskIds.filter (TaskProcessorService.idFails env)).length == 0)
          taskIds.length
          (taskIds.filter (fun i => !TaskProcessorService.idFails env i)).length
          (taskIds.filter (TaskProcessorService.idFails env)).length
          ((taskIds.filter (TaskProcessorService.idFails env)).map
            (fun i => (i, TaskProcessorService.errMsg env i)))
    ∧ (taskIds.filter (fun i => !TaskProcessorService.idFails env i)).length
          + (taskIds.filter (TaskProcessorService.idFails env)).length = taskIds.length
    ∧ (((taskIds.filter (TaskProcessorService.idFails env)).length == 0) = true
          ↔ (taskIds.filter (TaskProcessorService.idFails env)).length = 0) := by
  refine ⟨?_, length_filter_split _ _, by simp⟩
  obtain ⟨p1, p2, p3, p4, p5⟩ := foldl_processOneId_spec env taskIds
    { processed := 0, failed := 0, errors := [], env := env } (fun j => rfl) rfl
  simp only [TaskProcessorService.processOverdueTaskBatch]
  rw [foldl_chunks, chunkArray_flatten _ _ h, p1, p2, p3]
  simp

/-- Witness for overdue_batch_aggregate: of the ids a and zz over the
two-task store, a succeeds and zz fails, and the aggregate records both. -/
theorem overdue_batch_aggregate_witness :
    TaskProcessorService.processOverdueTaskBatch { db := dbAB } ["a", "zz"] 2
      = .overdueBatch false 2 1 1 [("zz", "Task with ID zz not found")] := by
  have h := overdue_batch_aggregate { db := dbAB } ["a", "zz"] 2 (by omega)
  exact h.1.trans (by decide)

end ScriptAssist
